import Mathlib

/-!
Shallow embedding of the OT compliance dashboard's processing core
(`src/utils/excelHelpers.ts` and the filtering logic of the Dashboard
component), together with theorems settling the specification claims.

Dates are modelled as JavaScript dates: an integer count of milliseconds
since the Unix epoch (UTC).  Numeric cell values are modelled as integers
(the claims only exercise integer-valued cells).  JavaScript `Map` and
plain-object records are modelled as insertion-ordered association lists,
matching `Map.set` (in-place replacement keeps the original position) and
`Array.from(map.values())` (insertion order).
-/

namespace OTDash

/-- A spreadsheet cell value as seen by the TypeScript code: a string, a
number, or a `Date` object (carried as its millisecond timestamp; an
out-of-range timestamp models an invalid `Date`). -/
inductive CellVal where
  | str (s : String)
  | num (n : Int)
  | date (ms : Int)
deriving Repr, DecidableEq

/-- A raw row: mapping from column header to cell value.  A header absent
from the list models an `undefined` cell. -/
abbrev Row := List (String × CellVal)

/-- `row[field]` — `none` models `undefined`. -/
def getCell (row : Row) (field : String) : Option CellVal :=
  (row.find? (fun kv => kv.1 = field)).map (·.2)

/-- JavaScript truthiness of a (possibly `undefined`) cell value. -/
def jsTruthy : Option CellVal → Bool
  | none => false
  | some (.str s) => s ≠ ""
  | some (.num n) => n ≠ 0
  | some (.date _) => true

/-- `s.trim()`: strip leading and trailing whitespace (ASCII whitespace,
which covers every cell the claims exercise), computably over the
character list. -/
def jsTrim (s : String) : String :=
  (((s.data.dropWhile Char.isWhitespace).reverse.dropWhile Char.isWhitespace).reverse).asString

/-- `String(v)` on a cell value.  Integer rendering matches JavaScript for
integers; `Date` stringification is host-defined and is modelled here as a
placeholder non-blank text (no claim depends on its exact contents). -/
def jsString : CellVal → String
  | .str s => s
  | .num n => toString n
  | .date ms => "Date(" ++ toString ms ++ ")"

/-- `v || dflt` for a cell value against a string default. -/
def jsOr (c : Option CellVal) (dflt : String) : CellVal :=
  if jsTruthy c then c.getD (.str dflt) else .str dflt

/-- `String(row[field] || dflt).trim()` — the code's ubiquitous text-field
normalization. -/
def strField (row : Row) (field : String) (dflt : String) : String :=
  jsTrim (jsString (jsOr (getCell row field) dflt))

/-- `INTERNAL_CLIENT_CODES` (excelHelpers.ts line 4). -/
def INTERNAL_CLIENT_CODES : List String := ["C0008157", "C0001114", "C0001140"]

/-- JavaScript `Date` range check: `new Date(ms)` is invalid (NaN time)
iff `|ms| > 8.64e15`. -/
def msValid (ms : Int) : Bool := ms.natAbs ≤ 8640000000000000

/-- `Math.round((serial - 25569) * 86400 * 1000)` — exact for integer
serial numbers. -/
def serialToMs (n : Int) : Int := (n - 25569) * 86400000

/-- Is the string non-empty and digits only? -/
def isDigits (s : String) : Bool := s.length > 0 && s.toList.all Char.isDigit

/-- `parseExcelDate` (excelHelpers.ts lines 7-51).  The `empty`, `Date`
and numeric branches are modelled exactly.  The string branch is modelled
for blank strings and pure-digit strings (parsed as a serial number, per
line 23's numeric-without-separators case); the `D/M/YYYY`, `YYYY-M-D`
and host-generic `new Date(string)` parses construct calendar dates that
no claim exercises and conservatively yield `none` here. -/
def parseExcelDate : Option CellVal → Option Int
  | none => none
  | some (.date ms) => if msValid ms then some ms else none
  | some (.num n) =>
      let ms := serialToMs n
      if msValid ms then some ms else none
  | some (.str s) =>
      let t := jsTrim s
      if t = "" then none
      else if isDigits t then
        let ms := serialToMs (Int.ofNat (t.toNat?.getD 0))
        if msValid ms then some ms else none
      else none

/-- `parseAmount` (excelHelpers.ts lines 53-61), restricted to the integer
domain of the model: numbers pass through; strings keep their digit/sign
characters and parse as an integer, `0` when unparsable.  (Fractional
amounts are outside the integer model; no claim mentions amounts.) -/
def parseAmount : Option CellVal → Int
  | some (.num n) => n
  | some (.str s) =>
      let clean := s.toList.filter (fun c => c.isDigit || c = '-' || c = '.')
      let digits := (clean.filter Char.isDigit).asString
      let mag : Int := Int.ofNat (digits.toNat?.getD 0)
      if digits = "" then 0
      else if clean.head? = some '-' then -mag else mag
  | _ => 0

/-- `ColumnMapping` (types.ts).  Optional / possibly-unconfigured roles are
plain strings; the empty string models an absent (falsy) mapping entry,
matching the code's `mapping.x ? … : …` truthiness guards. -/
structure ColumnMapping where
  otNumber : String
  folio : String
  clientCode : String
  workshop : String
  promisedDate : String
  secondPromisedDate : String
  realDeliveryDate : String
  billingDate : String
  amount : String
  otType : String
  invoiceNumber : String
  additionalFilters : List String
deriving Repr, DecidableEq

/-- `ParsedOT` (types.ts).  Dates are millisecond timestamps. -/
structure ParsedOT where
  id : String
  invoiceId : Option String
  folio : String
  workshop : String
  estimatedDate : Option Int
  secondEstimatedDate : Option Int
  realDate : Option Int
  billingDate : Option Int
  status : String
  clientCode : String
  isInternalClient : Bool
  amount : Int
  otType : String
  customValues : List (String × String)
deriving Repr, DecidableEq

/-- Record construction for a row with a non-blank OT number
(excelHelpers.ts lines 104-145). -/
def buildRecord (m : ColumnMapping) (row : Row) : ParsedOT :=
  let otNumber := strField row m.otNumber ""
  let clientCode := strField row m.clientCode ""
  let folio := if m.folio ≠ "" then strField row m.folio "" else ""
  let workshopName := strField row m.workshop "Sin Taller Asignado"
  let amount := if m.amount ≠ "" then parseAmount (getCell row m.amount) else 0
  let otType := if m.otType ≠ "" then strField row m.otType "" else "N/A"
  let invoiceId := if m.invoiceNumber ≠ "" then some (strField row m.invoiceNumber "") else none
  let isInternal := INTERNAL_CLIENT_CODES.contains clientCode
  let estimatedDate := parseExcelDate (getCell row m.promisedDate)
  let secondEstimatedDate :=
    if m.secondPromisedDate ≠ "" then parseExcelDate (getCell row m.secondPromisedDate) else none
  let realDate := parseExcelDate (getCell row m.realDeliveryDate)
  let billingDate := if m.billingDate ≠ "" then parseExcelDate (getCell row m.billingDate) else none
  let customValues := m.additionalFilters.map (fun f => (f, strField row f "N/A"))
  { id := otNumber
    invoiceId := invoiceId
    folio := folio
    workshop := if workshopName ≠ "" then workshopName else "Sin Taller"
    estimatedDate := estimatedDate
    secondEstimatedDate := secondEstimatedDate
    realDate := realDate
    billingDate := billingDate
    status := "Procesado"
    clientCode := clientCode
    isInternalClient := isInternal
    amount := amount
    otType := otType
    customValues := customValues }

/-- `map.get(k)` on an insertion-ordered association list. -/
def mapGet (mp : List (String × ParsedOT)) (k : String) : Option ParsedOT :=
  (mp.find? (fun kv => kv.1 = k)).map (·.2)

/-- `map.set(k, v)`: replace in place when the key exists (JavaScript `Map`
keeps the original insertion position), otherwise append. -/
def mapSet (mp : List (String × ParsedOT)) (k : String) (v : ParsedOT) :
    List (String × ParsedOT) :=
  match mp with
  | [] => [(k, v)]
  | (k', v') :: rest => if k' = k then (k, v) :: rest else (k', v') :: mapSet rest k v

/-- The duplicate-resolution step of the compliance map (excelHelpers.ts
lines 151-172): given the current map and a newly parsed record, returns
the updated map, the removal messages appended to `removedOtIds`, and
whether `duplicatesRemovedForCompliance` is incremented. -/
def complianceUpdate (mp : List (String × ParsedOT)) (p : ParsedOT) :
    List (String × ParsedOT) × List String × Bool :=
  match mapGet mp p.id with
  | some existingOT =>
      if existingOT.isInternalClient && !p.isInternalClient then
        (mapSet mp p.id p, [existingOT.id ++ " (Reemplazado interno por externo)"], true)
      else if !existingOT.isInternalClient && p.isInternalClient then
        (mp, [p.id ++ " (Duplicado interno ignorado)"], true)
      else if existingOT.realDate.isNone && p.realDate.isSome then
        (mapSet mp p.id p, [existingOT.id ++ " (Reemplazado por registro con fecha entrega)"], true)
      else
        (mp, [p.id ++ " (Duplicado ignorado)"], true)
  | none => (mapSet mp p.id p, [], false)

/-- The compliance map produced by folding `complianceUpdate` over a
record sequence — the reconciliation pass viewed at the record level. -/
def reconcileAll (l : List ParsedOT) : List (String × ParsedOT) :=
  l.foldl (fun mp p => (complianceUpdate mp p).1) []

/-- The surviving records per OT id (insertion order), i.e. what
`Array.from(otMapForCompliance.values())` yields for the record list. -/
def reconcileUnique (l : List ParsedOT) : List ParsedOT :=
  (reconcileAll l).map (·.2)

/-- Loop state of `processSheet`'s row pass. -/
structure SheetState where
  allRows : List ParsedOT
  otMap : List (String × ParsedOT)
  totalRows : Nat
  emptyRows : Nat
  dups : Nat
  removed : List String
deriving Repr, DecidableEq

def initState : SheetState :=
  { allRows := [], otMap := [], totalRows := 0, emptyRows := 0, dups := 0, removed := [] }

/-- One iteration of `processSheet`'s `forEach` (excelHelpers.ts
lines 101-173). -/
def processRow (m : ColumnMapping) (st : SheetState) (row : Row) : SheetState :=
  let st := { st with totalRows := st.totalRows + 1 }
  let otNumber := strField row m.otNumber ""
  if otNumber = "" then
    { st with emptyRows := st.emptyRows + 1 }
  else
    let parsedRow := buildRecord m row
    let st := { st with allRows := st.allRows ++ [parsedRow] }
    let r := complianceUpdate st.otMap parsedRow
    { st with
      otMap := r.1
      removed := st.removed ++ r.2.1
      dups := st.dups + (if r.2.2 then 1 else 0) }

/-- `internalClientsByCode[code] = (internalClientsByCode[code] || 0) + 1`
on the association-list model of a plain-object record. -/
def bumpCode (b : List (String × Nat)) (code : String) : List (String × Nat) :=
  match b with
  | [] => [(code, 1)]
  | (c, n) :: rest => if c = code then (c, n + 1) :: rest else (c, n) :: bumpCode rest code

/-- `b[code] || 0`. -/
def codeCount (b : List (String × Nat)) (code : String) : Nat :=
  ((b.find? (fun kv => kv.1 = code)).map (·.2)).getD 0

/-- `ProcessingReport` (types.ts). -/
structure ProcessingReport where
  totalRows : Nat
  emptyRows : Nat
  duplicatesRemovedForCompliance : Nat
  removedOtIds : List String
  internalClientsCount : Nat
  internalClientsByCode : List (String × Nat)
deriving Repr, DecidableEq

/-- `ProcessResult` (types.ts). -/
structure ProcessResult where
  allRows : List ParsedOT
  uniqueOTs : List ParsedOT
  report : ProcessingReport
deriving Repr, DecidableEq

/-- One step of the internal-client tally (excelHelpers.ts
lines 180-185). -/
def tallyStep (acc : Nat × List (String × Nat)) (ot : ParsedOT) : Nat × List (String × Nat) :=
  if ot.isInternalClient then (acc.1 + 1, bumpCode acc.2 ot.clientCode) else acc

/-- The internal-client tally over `allRows` (excelHelpers.ts
lines 177-185). -/
def internalTally (rows : List ParsedOT) : Nat × List (String × Nat) :=
  rows.foldl tallyStep (0, [])

/-- `processSheet` (excelHelpers.ts lines 89-199), starting from the
decoded row list (sheet decoding itself is the external collaborator). -/
def processSheet (m : ColumnMapping) (rows : List Row) : ProcessResult :=
  let st := rows.foldl (processRow m) initState
  let uniqueOTs := st.otMap.map (·.2)
  let tally := internalTally st.allRows
  { allRows := st.allRows
    uniqueOTs := uniqueOTs
    report :=
      { totalRows := st.totalRows
        emptyRows := st.emptyRows
        duplicatesRemovedForCompliance := st.dups
        removedOtIds := st.removed
        internalClientsCount := tally.1
        internalClientsByCode := tally.2 } }

/-! ### Classification and statistics (excelHelpers.ts lines 201-277) -/

/-- `setHours(0, 0, 0, 0)` on a timestamp: strip the time-of-day, keeping
the day (the embedding fixes the host time zone at UTC, so this is the
floor to a multiple of a day). -/
def stripTime (ms : Int) : Int := 86400000 * (Int.fdiv ms 86400000)

/-- The three delivery statuses tallied by `calculateStats`. -/
inductive OTStatus where
  | onTime
  | late
  | pending
deriving Repr, DecidableEq

/-- `ot.secondEstimatedDate || ot.estimatedDate` (excelHelpers.ts
line 223): the effective target date. -/
def targetDateOf (ot : ParsedOT) : Option Int :=
  match ot.secondEstimatedDate with
  | some d => some d
  | none => ot.estimatedDate

/-- The per-record classification branch of `calculateStats`
(excelHelpers.ts lines 225-246). -/
def classifyOT (ot : ParsedOT) : OTStatus :=
  match ot.realDate, targetDateOf ot with
  | some real, some target =>
      if stripTime real ≤ stripTime target then .onTime else .late
  | none, some _ => .pending
  | _, none => .pending

/-- Per-workshop accumulator of `calculateStats` (the `workshopMap`
values). -/
structure WStats where
  total : Nat
  onTime : Nat
  late : Nat
  pending : Nat
  amount : Int
deriving Repr, DecidableEq

def wZero : WStats := { total := 0, onTime := 0, late := 0, pending := 0, amount := 0 }

/-- Apply `f` to the entry of `k` (which must have been ensured). -/
def wUpdate (mp : List (String × WStats)) (k : String) (f : WStats → WStats) :
    List (String × WStats) :=
  mp.map (fun kv => if kv.1 = k then (kv.1, f kv.2) else kv)

/-- Global accumulator of `calculateStats`. -/
structure StatsState where
  workshopMap : List (String × WStats)
  globalTotal : Nat
  globalOnTime : Nat
  globalLate : Nat
  globalPending : Nat
  globalAmount : Int
deriving Repr, DecidableEq

def statsInit : StatsState :=
  { workshopMap := [], globalTotal := 0, globalOnTime := 0, globalLate := 0,
    globalPending := 0, globalAmount := 0 }

/-- One iteration of `calculateStats`'s `forEach` (excelHelpers.ts
lines 210-247). -/
def statsStep (st : StatsState) (ot : ParsedOT) : StatsState :=
  let mp0 :=
    if (st.workshopMap.find? (fun kv => kv.1 = ot.workshop)).isSome then st.workshopMap
    else st.workshopMap ++ [(ot.workshop, wZero)]
  let base (s : WStats) : WStats := { s with total := s.total + 1, amount := s.amount + ot.amount }
  match classifyOT ot with
  | .onTime =>
      { workshopMap := wUpdate mp0 ot.workshop (fun s => { base s with onTime := s.onTime + 1 })
        globalTotal := st.globalTotal + 1
        globalOnTime := st.globalOnTime + 1
        globalLate := st.globalLate
        globalPending := st.globalPending
        globalAmount := st.globalAmount + ot.amount }
  | .late =>
      { workshopMap := wUpdate mp0 ot.workshop (fun s => { base s with late := s.late + 1 })
        globalTotal := st.globalTotal + 1
        globalOnTime := st.globalOnTime
        globalLate := st.globalLate + 1
        globalPending := st.globalPending
        globalAmount := st.globalAmount + ot.amount }
  | .pending =>
      { workshopMap := wUpdate mp0 ot.workshop (fun s => { base s with pending := s.pending + 1 })
        globalTotal := st.globalTotal + 1
        globalOnTime := st.globalOnTime
        globalLate := st.globalLate
        globalPending := st.globalPending + 1
        globalAmount := st.globalAmount + ot.amount }

/-- `GlobalStats` (types.ts), without the floating-point percentage fields
(`averageCompliance`, `complianceRate`) and the presentation sort of the
workshop list, which are display-only derivations of the tallies kept
here. -/
structure GlobalStats where
  totalOTs : Nat
  totalOnTime : Nat
  totalLate : Nat
  totalPending : Nat
  totalAmount : Int
  workshops : List (String × WStats)
deriving Repr, DecidableEq

/-- `calculateStats` (excelHelpers.ts lines 201-277). -/
def calculateStats (ots : List ParsedOT) : GlobalStats :=
  let st := ots.foldl statsStep statsInit
  { totalOTs := st.globalTotal
    totalOnTime := st.globalOnTime
    totalLate := st.globalLate
    totalPending := st.globalPending
    totalAmount := st.globalAmount
    workshops := st.workshopMap }

/-! ### Dashboard filtering (src/unnamed/part_001, lines 86-130)

`getFullYear`/`getMonth` on a timestamp are computed with the standard
civil-from-days conversion (proleptic Gregorian, UTC). -/

/-- Days since the Unix epoch of a timestamp (floor). -/
def daysFromMs (ms : Int) : Int := Int.fdiv ms 86400000

/-- Civil date `(year, month 1-12, day 1-31)` of a day count since
1970-01-01 (proleptic Gregorian). -/
def civilFromDays (z0 : Int) : Int × Int × Int :=
  let z := z0 + 719468
  let era := Int.fdiv z 146097
  let doe := z - era * 146097
  let yoe := Int.fdiv (doe - Int.fdiv doe 1460 + Int.fdiv doe 36524 - Int.fdiv doe 146096) 365
  let y := yoe + era * 400
  let doy := doe - (365 * yoe + Int.fdiv yoe 4 - Int.fdiv yoe 100)
  let mp := Int.fdiv (5 * doy + 2) 153
  let d := doy - Int.fdiv (153 * mp + 2) 5 + 1
  let m := if mp < 10 then mp + 3 else mp - 9
  (if m ≤ 2 then y + 1 else y, m, d)

/-- `date.getFullYear()` (UTC model). -/
def jsGetFullYear (ms : Int) : Int := (civilFromDays (daysFromMs ms)).1

/-- `date.getMonth()` (0-based, UTC model). -/
def jsGetMonth (ms : Int) : Int := (civilFromDays (daysFromMs ms)).2.1 - 1

/-- The Dashboard's filter state.  `none` models the `'all'` sentinel; the
custom-filter list holds only the entries whose selected value is not
`'all'` (an `'all'` entry is skipped by the code). -/
structure FilterState where
  year : Option Int
  month : Option Int
  workshop : Option String
  custom : List (String × String)
deriving Repr, DecidableEq

/-- `checkFilters` (part_001 lines 86-109). -/
def checkFilters (fs : FilterState) (ot : ParsedOT) : Bool :=
  let dateMatch :=
    match fs.year with
    | none => true
    | some y =>
        match ot.billingDate with
        | none => false
        | some b =>
            let yearMatch := jsGetFullYear b = y
            let monthMatch :=
              match fs.month with
              | none => true
              | some mo => jsGetMonth b = mo
            yearMatch && monthMatch
  let workshopMatch :=
    match fs.workshop with
    | none => true
    | some w => ot.workshop = w
  let dynamicMatch :=
    fs.custom.all (fun fv => ((ot.customValues.find? (fun kv => kv.1 = fv.1)).map (·.2)) = some fv.2)
  dateMatch && workshopMatch && dynamicMatch

/-- `complianceData` (part_001 lines 112-119): unique OTs minus the
hardcoded internal clients, then the common filters. -/
def complianceData (fs : FilterState) (uniqueOTs : List ParsedOT) : List ParsedOT :=
  uniqueOTs.filter (fun ot =>
    !(["C0008157", "C0001114", "C0001140"].contains ot.clientCode) && checkFilters fs ot)

/-- `financialData` (part_001 lines 124-130): all rows minus the hardcoded
internal clients, then the common filters. -/
def financialData (fs : FilterState) (allRows : List ParsedOT) : List ParsedOT :=
  allRows.filter (fun ot =>
    !(["C0008157", "C0001114", "C0001140"].contains ot.clientCode) && checkFilters fs ot)

/-! ### Auxiliary predicates and invariants -/

/-- A blank-after-trimming OT-number cell: the row is skipped with
`emptyRows++`. -/
def blankId (m : ColumnMapping) (row : Row) : Prop := strField row m.otNumber "" = ""

instance (m : ColumnMapping) (row : Row) : Decidable (blankId m row) := by
  unfold blankId; infer_instance

/-- A blank cell in the sense of the spec: missing, empty, or
whitespace-only. -/
def cellBlank (c : Option CellVal) : Prop :=
  c = none ∨ ∃ s, c = some (.str s) ∧ jsTrim s = ""

/-- One reconciliation step at the record level: the map, the removal
messages and the duplicate counter evolve exactly as in `processRow`'s
duplicate handling. -/
def reconStep (s : List (String × ParsedOT) × List String × Nat) (p : ParsedOT) :
    List (String × ParsedOT) × List String × Nat :=
  let r := complianceUpdate s.1 p
  (r.1, s.2.1 ++ r.2.1, s.2.2 + (if r.2.2 then 1 else 0))

/-- The rows that survive the blank-id check. -/
def keptRows (m : ColumnMapping) (rows : List Row) : List Row :=
  rows.filter (fun r => !decide (strField r m.otNumber "" = ""))

/-- The records built from the non-blank rows, in source order. -/
def keptRecords (m : ColumnMapping) (rows : List Row) : List ParsedOT :=
  (keptRows m rows).map (buildRecord m)

/-- How many rows have a blank OT-number cell. -/
def blankCount (m : ColumnMapping) (rows : List Row) : Nat :=
  (rows.filter (fun r => decide (strField r m.otNumber "" = ""))).length

/-- Invariant of the `processSheet` row pass: the compliance map has
no duplicate keys, each entry is keyed by its record's id and holds a
record present in `allRows`, the key set is exactly the id set of
`allRows`, and the duplicate counter accounts for the rows that did not
get their own key. -/
structure SheetInv (st : SheetState) : Prop where
  nodupKeys : (st.otMap.map (·.1)).Nodup
  entries : ∀ kv ∈ st.otMap, kv.2.id = kv.1 ∧ kv.2 ∈ st.allRows
  keysIff : ∀ i, i ∈ st.otMap.map (·.1) ↔ i ∈ st.allRows.map (·.id)
  count : st.dups + st.otMap.length = st.allRows.length

/-! ### Concrete instances used by witnesses and counterexamples -/

/-- A column mapping with the ubiquitous roles configured. -/
def mEx : ColumnMapping :=
  { otNumber := "OT", folio := "", clientCode := "CC", workshop := "WS",
    promisedDate := "PD", secondPromisedDate := "SPD", realDeliveryDate := "RD",
    billingDate := "BD", amount := "", otType := "TY", invoiceNumber := "",
    additionalFilters := [] }

/-- A plain row: OT id `"A"`, external client, no dates, no type cell. -/
def rowEx : Row := [("OT", .str "A"), ("CC", .str "X")]

/-- A row whose OT-number cell is absent. -/
def rowBlankId : Row := [("CC", .str "X")]

/-- A row with a real delivery date (serial 45001). -/
def rowExWithDate : Row := [("OT", .str "A"), ("CC", .str "X"), ("RD", .num 45001)]

/-- A row for an internal client. -/
def rowInternal : Row := [("OT", .str "B"), ("CC", .str "C0008157"), ("WS", .str "W1")]

/-- A baseline external record with no dates. -/
def baseRec : ParsedOT :=
  { id := "A", invoiceId := none, folio := "", workshop := "W",
    estimatedDate := none, secondEstimatedDate := none, realDate := none,
    billingDate := none, status := "Procesado", clientCode := "X",
    isInternalClient := false, amount := 0, otType := "N/A", customValues := [] }

/-- Internal-client twin of `baseRec` (same id). -/
def recInternal : ParsedOT :=
  { baseRec with clientCode := "C0008157", isInternalClient := true }

/-- External record with a real delivery date (same id). -/
def recWithDate : ParsedOT := { baseRec with realDate := some 1678924800000 }

/-- External record with both a real date and a target date met on the
day. -/
def recOnTime : ParsedOT :=
  { baseRec with estimatedDate := some 1678838400000, realDate := some 1678838400000 }

/-- External record with a target date and no real date. -/
def recPending : ParsedOT := { baseRec with estimatedDate := some 1678838400000 }

/-- An everything-selected filter state used to exercise `checkFilters`. -/
def fsEx : FilterState :=
  { year := some 2023, month := some 2, workshop := some "W1", custom := [] }

/-- A row whose workshop cell is whitespace-only. -/
def rowWsBlank : Row := [("OT", .str "A"), ("WS", .str " ")]

/-- `mEx` with the OT-type column left unconfigured. -/
def mNoType : ColumnMapping := { mEx with otType := "" }

/-! ### Association-list lemmas -/

theorem mapGet_eq_none_iff (mp : List (String × ParsedOT)) (k : String) :
    mapGet mp k = none ↔ k ∉ mp.map (·.1) := by
  constructor
  · intro h hk
    obtain ⟨kv, hkv, he⟩ := List.mem_map.mp hk
    have hf := List.find?_eq_none.mp (Option.map_eq_none'.mp h) kv hkv
    simp only [decide_eq_true_eq] at hf
    exact hf he
  · intro h
    rw [show mapGet mp k = Option.map (·.2) (mp.find? (fun kv => kv.1 = k)) from rfl,
      Option.map_eq_none']
    apply List.find?_eq_none.mpr
    intro kv hkv
    simp only [decide_eq_true_eq]
    intro he
    exact h (List.mem_map.mpr ⟨kv, hkv, he⟩)

theorem mapGet_isSome_iff (mp : List (String × ParsedOT)) (k : String) :
    (mapGet mp k).isSome = true ↔ k ∈ mp.map (·.1) := by
  rcases h : mapGet mp k with _ | v
  · simpa [h] using (mapGet_eq_none_iff mp k).mp h
  · simp only [Option.isSome_some, true_iff]
    by_contra hk
    rw [(mapGet_eq_none_iff mp k).mpr hk] at h
    exact Option.noConfusion h

theorem mapSet_of_not_mem (mp : List (String × ParsedOT)) (k : String) (v : ParsedOT)
    (h : k ∉ mp.map (·.1)) : mapSet mp k v = mp ++ [(k, v)] := by
  induction mp with
  | nil => rfl
  | cons kv rest ih =>
    have hk : ¬kv.1 = k := fun e =>
      h (List.mem_map.mpr ⟨kv, List.mem_cons_self kv rest, e⟩)
    have hrest : k ∉ rest.map (·.1) := by
      intro hr
      obtain ⟨kv', h1, h2⟩ := List.mem_map.mp hr
      exact h (List.mem_map.mpr ⟨kv', List.mem_cons_of_mem _ h1, h2⟩)
    simp [mapSet, hk, ih hrest]

theorem mapSet_keys_of_mem (mp : List (String × ParsedOT)) (k : String) (v : ParsedOT)
    (h : k ∈ mp.map (·.1)) : (mapSet mp k v).map (·.1) = mp.map (·.1) := by
  induction mp with
  | nil => simp at h
  | cons kv rest ih =>
    by_cases hk : kv.1 = k
    · simp [mapSet, hk]
    · have hrest : k ∈ rest.map (·.1) := by
        obtain ⟨kv', h1, h2⟩ := List.mem_map.mp h
        rcases List.mem_cons.mp h1 with h1 | h1
        · exact absurd (h1 ▸ h2) hk
        · exact List.mem_map.mpr ⟨kv', h1, h2⟩
      simp [mapSet, hk, ih hrest]

theorem length_mapSet_of_mem (mp : List (String × ParsedOT)) (k : String) (v : ParsedOT)
    (h : k ∈ mp.map (·.1)) : (mapSet mp k v).length = mp.length := by
  have := congrArg List.length (mapSet_keys_of_mem mp k v h)
  simpa using this

theorem mem_mapSet (mp : List (String × ParsedOT)) (k : String) (v : ParsedOT)
    (kv : String × ParsedOT) (h : kv ∈ mapSet mp k v) : kv = (k, v) ∨ kv ∈ mp := by
  induction mp with
  | nil => simpa [mapSet] using h
  | cons kv' rest ih =>
    by_cases hk : kv'.1 = k
    · rcases (by simpa [mapSet, hk] using h) with h1 | h1
      · exact Or.inl h1
      · exact Or.inr (List.mem_cons_of_mem _ h1)
    · rcases (by simpa [mapSet, hk] using h) with h1 | h1
      · exact Or.inr (by simp [h1])
      · rcases ih h1 with h2 | h2
        · exact Or.inl h2
        · exact Or.inr (List.mem_cons_of_mem _ h2)

/-! ### `complianceUpdate` case analysis -/

theorem complianceUpdate_of_none (mp : List (String × ParsedOT)) (p : ParsedOT)
    (h : mapGet mp p.id = none) :
    complianceUpdate mp p = (mapSet mp p.id p, [], false) := by
  simp [complianceUpdate, h]

theorem complianceUpdate_of_some (mp : List (String × ParsedOT)) (p ex : ParsedOT)
    (h : mapGet mp p.id = some ex) :
    ((complianceUpdate mp p).1 = mapSet mp p.id p ∨ (complianceUpdate mp p).1 = mp) ∧
      (complianceUpdate mp p).2.2 = true := by
  simp only [complianceUpdate, h]
  split
  · exact ⟨Or.inl rfl, rfl⟩
  · split
    · exact ⟨Or.inr rfl, rfl⟩
    · split
      · exact ⟨Or.inl rfl, rfl⟩
      · exact ⟨Or.inr rfl, rfl⟩

/-! ### `processRow` rewrites -/

theorem processRow_blank (m : ColumnMapping) (st : SheetState) (row : Row)
    (h : strField row m.otNumber "" = "") :
    processRow m st row =
      { st with totalRows := st.totalRows + 1, emptyRows := st.emptyRows + 1 } := by
  simp [processRow, h]

theorem processRow_nonblank (m : ColumnMapping) (st : SheetState) (row : Row)
    (h : ¬strField row m.otNumber "" = "") :
    processRow m st row =
      { st with
        totalRows := st.totalRows + 1
        allRows := st.allRows ++ [buildRecord m row]
        otMap := (complianceUpdate st.otMap (buildRecord m row)).1
        removed := st.removed ++ (complianceUpdate st.otMap (buildRecord m row)).2.1
        dups :=
          st.dups + (if (complianceUpdate st.otMap (buildRecord m row)).2.2 then 1 else 0) } := by
  simp [processRow, h]

/-! ### The row-pass invariant -/

theorem sheetInv_init : SheetInv initState := by
  refine ⟨?_, ?_, ?_, ?_⟩ <;> simp [initState]

theorem sheetInv_processRow (m : ColumnMapping) (st : SheetState) (row : Row)
    (h : SheetInv st) : SheetInv (processRow m st row) := by
  by_cases hb : strField row m.otNumber "" = ""
  · rw [processRow_blank m st row hb]
    exact ⟨h.nodupKeys, h.entries, h.keysIff, h.count⟩
  · rw [processRow_nonblank m st row hb]
    rcases hg : mapGet st.otMap (buildRecord m row).id with _ | ex
    · have hcu := complianceUpdate_of_none st.otMap (buildRecord m row) hg
      have hnot : (buildRecord m row).id ∉ st.otMap.map (·.1) :=
        (mapGet_eq_none_iff _ _).mp hg
      have hset := mapSet_of_not_mem st.otMap (buildRecord m row).id (buildRecord m row) hnot
      refine ⟨?_, ?_, ?_, ?_⟩ <;> dsimp only <;> rw [hcu] <;> dsimp only <;> rw [hset]
      · simp only [List.map_append, List.map_cons, List.map_nil, List.nodup_append,
          List.nodup_cons, List.not_mem_nil, not_false_iff, List.nodup_nil, and_true, true_and]
        refine ⟨h.nodupKeys, ?_⟩
        intro a ha hb2
        simp only [List.mem_cons, List.not_mem_nil, or_false] at hb2
        subst hb2
        exact hnot ha
      · intro kv hkv
        rcases List.mem_append.mp hkv with h1 | h1
        · obtain ⟨he, hm⟩ := h.entries kv h1
          exact ⟨he, List.mem_append_left _ hm⟩
        · simp only [List.mem_cons, List.not_mem_nil, or_false] at h1
          subst h1
          exact ⟨rfl, List.mem_append_right _ (List.mem_cons_self _ _)⟩
      · intro i
        simp only [List.map_append, List.map_cons, List.map_nil, List.mem_append,
          List.mem_cons, List.not_mem_nil, or_false]
        constructor
        · rintro (h1 | h1)
          · exact Or.inl ((h.keysIff i).mp h1)
          · exact Or.inr h1
        · rintro (h1 | h1)
          · exact Or.inl ((h.keysIff i).mpr h1)
          · exact Or.inr h1
      · simp only [Bool.false_eq_true, if_false, List.length_append, List.length_cons,
          List.length_nil]
        have := h.count
        omega
    · have hcu := complianceUpdate_of_some st.otMap (buildRecord m row) ex hg
      have hmem : (buildRecord m row).id ∈ st.otMap.map (·.1) := by
        apply (mapGet_isSome_iff st.otMap (buildRecord m row).id).mp
        rw [hg]
        rfl
      have hkeys : ((complianceUpdate st.otMap (buildRecord m row)).1).map (·.1) =
          st.otMap.map (·.1) := by
        rcases hcu.1 with h1 | h1 <;> rw [h1]
        exact mapSet_keys_of_mem _ _ _ hmem
      have hlen : ((complianceUpdate st.otMap (buildRecord m row)).1).length =
          st.otMap.length := by
        have := congrArg List.length hkeys
        simpa using this
      have hmemv : ∀ kv ∈ (complianceUpdate st.otMap (buildRecord m row)).1,
          kv = ((buildRecord m row).id, buildRecord m row) ∨ kv ∈ st.otMap := by
        rcases hcu.1 with h1 | h1 <;> rw [h1]
        · exact fun kv hkv => mem_mapSet _ _ _ kv hkv
        · exact fun kv hkv => Or.inr hkv
      refine ⟨?_, ?_, ?_, ?_⟩ <;> dsimp only
      · rw [hkeys]
        exact h.nodupKeys
      · intro kv hkv
        rcases hmemv kv hkv with h1 | h1
        · subst h1
          exact ⟨rfl, List.mem_append_right _ (List.mem_cons_self _ _)⟩
        · obtain ⟨he, hm⟩ := h.entries kv h1
          exact ⟨he, List.mem_append_left _ hm⟩
      · intro i
        rw [hkeys]
        simp only [List.map_append, List.map_cons, List.map_nil, List.mem_append,
          List.mem_cons, List.not_mem_nil, or_false]
        constructor
        · intro h1
          exact Or.inl ((h.keysIff i).mp h1)
        · rintro (h1 | h1)
          · exact (h.keysIff i).mpr h1
          · subst h1
            exact hmem
      · rw [hcu.2]
        simp only [if_true, List.length_append, List.length_cons, List.length_nil]
        rw [hlen]
        have := h.count
        omega

theorem sheetInv_foldl (m : ColumnMapping) (rows : List Row) (st : SheetState)
    (h : SheetInv st) : SheetInv (rows.foldl (processRow m) st) := by
  induction rows generalizing st with
  | nil => exact h
  | cons r rest ih => exact ih _ (sheetInv_processRow m st r h)

theorem sheetInv_processSheet (m : ColumnMapping) (rows : List Row) :
    SheetInv (rows.foldl (processRow m) initState) :=
  sheetInv_foldl m rows initState sheetInv_init

/-! ### Characterization of the row pass -/

theorem foldl_processRow_char (m : ColumnMapping) (rows : List Row) (st : SheetState) :
    rows.foldl (processRow m) st =
      { totalRows := st.totalRows + rows.length
        emptyRows := st.emptyRows + blankCount m rows
        allRows := st.allRows ++ keptRecords m rows
        otMap := ((keptRecords m rows).foldl reconStep (st.otMap, st.removed, st.dups)).1
        removed := ((keptRecords m rows).foldl reconStep (st.otMap, st.removed, st.dups)).2.1
        dups := ((keptRecords m rows).foldl reconStep (st.otMap, st.removed, st.dups)).2.2 } := by
  induction rows generalizing st with
  | nil =>
    cases st
    simp [keptRecords, keptRows, blankCount]
  | cons r rest ih =>
    rw [List.foldl_cons]
    by_cases hb : strField r m.otNumber "" = ""
    · rw [processRow_blank m st r hb, ih]
      simp only [SheetState.mk.injEq]
      refine ⟨?_, ?_, ?_, ?_, ?_, ?_⟩ <;>
          simp [keptRecords, keptRows, blankCount, hb] <;> omega
    · rw [processRow_nonblank m st r hb, ih]
      simp only [SheetState.mk.injEq]
      refine ⟨?_, ?_, ?_, ?_, ?_, ?_⟩ <;>
          simp [keptRecords, keptRows, blankCount, reconStep, hb] <;> omega

/-! ### Claim C9 -/

/-- C9: normalizing the numeric spreadsheet serial 45000 yields a date,
and converting that date back to a serial (milliseconds since the Unix
epoch divided by 86400000, plus 25569) returns exactly 45000. -/
theorem c9_serial_roundtrip :
    ∃ ms : Int, parseExcelDate (some (.num 45000)) = some ms ∧
      ms / 86400000 + 25569 = 45000 := by
  refine ⟨1678838400000, ?_, by decide⟩
  decide

/-! ### Claim C10 -/

/-- C10: for every ingested row, the record's workshop field is never the
empty string; a missing, empty, or otherwise falsy workshop cell yields
the label "Sin Taller Asignado", while a whitespace-only (truthy) string
cell yields the label "Sin Taller". -/
theorem c10_workshop_fallbacks (m : ColumnMapping) (row : Row) :
    (buildRecord m row).workshop ≠ "" ∧
    (jsTruthy (getCell row m.workshop) = false →
      (buildRecord m row).workshop = "Sin Taller Asignado") ∧
    (∀ s, getCell row m.workshop = some (.str s) → s ≠ "" → jsTrim s = "" →
      (buildRecord m row).workshop = "Sin Taller") := by
  refine ⟨?_, ?_, ?_⟩
  · by_cases h : strField row m.workshop "Sin Taller Asignado" = ""
    · simp [buildRecord, h]
    · simp [buildRecord, h]
  · intro hf
    have h1 : strField row m.workshop "Sin Taller Asignado" = "Sin Taller Asignado" := by
      simp [strField, jsOr, hf, jsString]
      decide
    simp [buildRecord, h1]
  · intro s hs hne htrim
    have ht : jsTruthy (some (CellVal.str s)) = true := by
      simp [jsTruthy, hne]
    have h1 : strField row m.workshop "Sin Taller Asignado" = "" := by
      simp [strField, jsOr, hs, ht, jsString, htrim]
    simp [buildRecord, h1]

/-- C10 witness: a missing workshop cell yields "Sin Taller Asignado"; a
whitespace-only cell yields "Sin Taller". -/
theorem c10_workshop_fallbacks_witness :
    (buildRecord mEx rowEx).workshop = "Sin Taller Asignado" ∧
    (buildRecord mEx rowWsBlank).workshop = "Sin Taller" :=
  ⟨(c10_workshop_fallbacks mEx rowEx).2.1 (by decide),
   (c10_workshop_fallbacks mEx rowWsBlank).2.2 " " (by decide) (by decide) (by decide)⟩

/-! ### Claim C4 -/

/-- C4: for two same-id records A (internal client, no real date) and
B (external client, no real date), reconciliation selects B as the
survivor whether the input order is [A, B] or [B, A]. -/
theorem c4_external_wins (A B : ParsedOT) (hid : A.id = B.id)
    (hA : A.isInternalClient = true) (hB : B.isInternalClient = false)
    (hAr : A.realDate = none) (hBr : B.realDate = none) :
    reconcileUnique [A, B] = [B] ∧ reconcileUnique [B, A] = [B] := by
  constructor
  · simp [reconcileUnique, reconcileAll, complianceUpdate, mapGet, mapSet, hid, hA, hB]
  · simp [reconcileUnique, reconcileAll, complianceUpdate, mapGet, mapSet, hid.symm, hA, hB]

/-- C4 witness at concrete records. -/
theorem c4_external_wins_witness :
    reconcileUnique [recInternal, baseRec] = [baseRec] ∧
    reconcileUnique [baseRec, recInternal] = [baseRec] :=
  c4_external_wins recInternal baseRec rfl rfl rfl rfl rfl

/-! ### Claim C5 -/

/-- C5: for two same-id records agreeing on internal/external status,
a record with a real delivery date beats one without, in either input
order; and when neither or both have a real date, the first-seen record
survives. -/
theorem c5_tiebreak :
    (∀ C D : ParsedOT, C.id = D.id → C.isInternalClient = D.isInternalClient →
      C.realDate = none → D.realDate ≠ none →
      reconcileUnique [C, D] = [D] ∧ reconcileUnique [D, C] = [D]) ∧
    (∀ X Y : ParsedOT, X.id = Y.id → X.isInternalClient = Y.isInternalClient →
      X.realDate.isSome = Y.realDate.isSome →
      reconcileUnique [X, Y] = [X]) := by
  constructor
  · intro C D hid hs hC hD
    obtain ⟨d, hd⟩ := Option.ne_none_iff_exists'.mp hD
    constructor
    · cases hb : C.isInternalClient <;>
        simp [reconcileUnique, reconcileAll, complianceUpdate, mapGet, mapSet, hid,
          hb, hs.symm.trans hb, hC, hd]
    · cases hb : C.isInternalClient <;>
        simp [reconcileUnique, reconcileAll, complianceUpdate, mapGet, mapSet, hid.symm,
          hb, hs.symm.trans hb, hC, hd]
  · intro X Y hid hs hr
    rcases hX : X.realDate with _ | x
    · have hY : Y.realDate = none := by
        rw [hX] at hr
        exact Option.not_isSome_iff_eq_none.mp (by simp [← hr])
      cases hb : X.isInternalClient <;>
        simp [reconcileUnique, reconcileAll, complianceUpdate, mapGet, mapSet, hid,
          hb, hs.symm.trans hb, hX, hY]
    · cases hb : X.isInternalClient <;>
        simp [reconcileUnique, reconcileAll, complianceUpdate, mapGet, mapSet, hid,
          hb, hs.symm.trans hb, hX]

/-- C5 witness at concrete records. -/
theorem c5_tiebreak_witness :
    reconcileUnique [baseRec, recWithDate] = [recWithDate] ∧
    reconcileUnique [baseRec, baseRec] = [baseRec] :=
  ⟨(c5_tiebreak.1 baseRec recWithDate rfl rfl rfl (by decide)).1,
   c5_tiebreak.2 baseRec baseRec rfl rfl rfl⟩

/-! ### Stats-fold lemmas -/

theorem statsStep_globals (st : StatsState) (ot : ParsedOT) :
    (statsStep st ot).globalTotal = st.globalTotal + 1 ∧
    (statsStep st ot).globalOnTime =
      st.globalOnTime + (if classifyOT ot = OTStatus.onTime then 1 else 0) ∧
    (statsStep st ot).globalLate =
      st.globalLate + (if classifyOT ot = OTStatus.late then 1 else 0) ∧
    (statsStep st ot).globalPending =
      st.globalPending + (if classifyOT ot = OTStatus.pending then 1 else 0) := by
  rcases h : classifyOT ot <;> simp [statsStep, h]

theorem statsFold_globals (ots : List ParsedOT) (st : StatsState) :
    (ots.foldl statsStep st).globalTotal = st.globalTotal + ots.length ∧
    (ots.foldl statsStep st).globalOnTime =
      st.globalOnTime + ots.countP (fun o => classifyOT o = OTStatus.onTime) ∧
    (ots.foldl statsStep st).globalLate =
      st.globalLate + ots.countP (fun o => classifyOT o = OTStatus.late) ∧
    (ots.foldl statsStep st).globalPending =
      st.globalPending + ots.countP (fun o => classifyOT o = OTStatus.pending) := by
  induction ots generalizing st with
  | nil => simp
  | cons o rest ih =>
    obtain ⟨h1, h2, h3, h4⟩ := statsStep_globals st o
    obtain ⟨g1, g2, g3, g4⟩ := ih (statsStep st o)
    rw [List.foldl_cons, g1, g2, g3, g4, h1, h2, h3, h4]
    simp only [List.countP_cons, List.length_cons]
    rcases h : classifyOT o <;> simp [h] <;> omega

/-! ### Claim C6 -/

/-- C6: classification uses the effective target date
(`secondEstimatedDate` if present, else `estimatedDate`) at day
granularity with the time of day stripped from both sides: no target date
gives Pending regardless of real date; a target date without a real date
gives Pending; with both, real ≤ target gives OnTime and real > target
gives Late — and `calculateStats`'s global tallies count exactly these
classifications. -/
theorem c6_classification (ots : List ParsedOT) (ot : ParsedOT) :
    ((calculateStats ots).totalOTs = ots.length ∧
      (calculateStats ots).totalOnTime = ots.countP (fun o => classifyOT o = OTStatus.onTime) ∧
      (calculateStats ots).totalLate = ots.countP (fun o => classifyOT o = OTStatus.late) ∧
      (calculateStats ots).totalPending =
        ots.countP (fun o => classifyOT o = OTStatus.pending)) ∧
    (ot.secondEstimatedDate = none → ot.estimatedDate = none →
      classifyOT ot = OTStatus.pending) ∧
    (∀ t, (ot.secondEstimatedDate = some t ∨
        ot.secondEstimatedDate = none ∧ ot.estimatedDate = some t) →
      (ot.realDate = none → classifyOT ot = OTStatus.pending) ∧
      (∀ r, ot.realDate = some r →
        classifyOT ot = if stripTime r ≤ stripTime t then OTStatus.onTime else OTStatus.late)) := by
  obtain ⟨g1, g2, g3, g4⟩ := statsFold_globals ots statsInit
  refine ⟨⟨?_, ?_, ?_, ?_⟩, ?_, ?_⟩
  · simpa [calculateStats, statsInit] using g1
  · simpa [calculateStats, statsInit] using g2
  · simpa [calculateStats, statsInit] using g3
  · simpa [calculateStats, statsInit] using g4
  · intro h2 h1
    rcases hr : ot.realDate with _ | r <;> simp [classifyOT, targetDateOf, h2, h1, hr]
  · intro t ht
    have htgt : targetDateOf ot = some t := by
      rcases ht with h | ⟨h2, h1⟩
      · simp [targetDateOf, h]
      · simp [targetDateOf, h2, h1]
    constructor
    · intro hr
      simp [classifyOT, htgt, hr]
    · intro r hr
      simp [classifyOT, htgt, hr]

/-- C6 witness: concrete records exercising the Pending and
OnTime/Late branches. -/
theorem c6_classification_witness :
    classifyOT recPending = OTStatus.pending ∧
    classifyOT baseRec = OTStatus.pending ∧
    classifyOT recOnTime =
      (if stripTime 1678838400000 ≤ stripTime 1678838400000 then OTStatus.onTime
       else OTStatus.late) :=
  ⟨((c6_classification [] recPending).2.2 1678838400000 (Or.inr ⟨rfl, rfl⟩)).1 rfl,
   (c6_classification [] baseRec).2.1 rfl rfl,
   ((c6_classification [] recOnTime).2.2 1678838400000 (Or.inr ⟨rfl, rfl⟩)).2
     1678838400000 rfl⟩

/-! ### Distinct-count helper -/

theorem nodup_length_eq_dedup (l1 l2 : List String)
    (hn : l1.Nodup) (hm : ∀ x, x ∈ l1 ↔ x ∈ l2) : l1.length = l2.dedup.length := by
  have hperm : l1.Perm l2.dedup := by
    rw [List.perm_ext_iff_of_nodup hn (List.nodup_dedup l2)]
    intro a
    rw [hm a, List.mem_dedup]
  exact hperm.length_eq

/-- `processSheet` in closed form: the report is computed from the
non-blank rows' records and the blank count. -/
theorem processSheet_char (m : ColumnMapping) (rows : List Row) :
    processSheet m rows =
      { allRows := keptRecords m rows
        uniqueOTs := (((keptRecords m rows).foldl reconStep ([], [], 0)).1).map (·.2)
        report :=
          { totalRows := rows.length
            emptyRows := blankCount m rows
            duplicatesRemovedForCompliance :=
              ((keptRecords m rows).foldl reconStep ([], [], 0)).2.2
            removedOtIds := ((keptRecords m rows).foldl reconStep ([], [], 0)).2.1
            internalClientsCount := (internalTally (keptRecords m rows)).1
            internalClientsByCode := (internalTally (keptRecords m rows)).2 } } := by
  unfold processSheet
  rw [foldl_processRow_char]
  simp [initState]

/-! ### Claim C7 -/

/-- C7: every record of `uniqueRecords` appears in `allRecords`, the ids
of `uniqueRecords` are pairwise distinct and are exactly the ids occurring
in `allRecords` (so each distinct id has exactly one representative), and
`uniqueRecords` is no longer than `allRecords`. -/
theorem c7_unique_representatives (m : ColumnMapping) (rows : List Row) :
    (∀ ot ∈ (processSheet m rows).uniqueOTs, ot ∈ (processSheet m rows).allRows) ∧
    ((processSheet m rows).uniqueOTs.map (·.id)).Nodup ∧
    (∀ i, i ∈ (processSheet m rows).uniqueOTs.map (·.id) ↔
      i ∈ (processSheet m rows).allRows.map (·.id)) ∧
    (processSheet m rows).uniqueOTs.length ≤ (processSheet m rows).allRows.length := by
  have inv := sheetInv_processSheet m rows
  have hmapid : (((rows.foldl (processRow m) initState).otMap.map (·.2)).map (·.id)) =
      (rows.foldl (processRow m) initState).otMap.map (·.1) := by
    rw [List.map_map]
    exact List.map_congr_left (fun kv hkv => (inv.entries kv hkv).1)
  refine ⟨?_, ?_, ?_, ?_⟩
  · intro ot hot
    obtain ⟨kv, hkv, hkv2⟩ := List.mem_map.mp hot
    exact hkv2 ▸ (inv.entries kv hkv).2
  · show (((rows.foldl (processRow m) initState).otMap.map (·.2)).map (·.id)).Nodup
    rw [hmapid]
    exact inv.nodupKeys
  · intro i
    show i ∈ ((rows.foldl (processRow m) initState).otMap.map (·.2)).map (·.id) ↔ _
    rw [hmapid]
    exact inv.keysIff i
  · show ((rows.foldl (processRow m) initState).otMap.map (·.2)).length ≤
      (rows.foldl (processRow m) initState).allRows.length
    have := inv.count
    simp only [List.length_map]
    omega

/-- C7 witness at a concrete sheet. -/
theorem c7_unique_representatives_witness :
    buildRecord mEx rowEx ∈ (processSheet mEx [rowEx]).allRows ∧
    (processSheet mEx [rowEx]).uniqueOTs.length ≤ (processSheet mEx [rowEx]).allRows.length :=
  ⟨(c7_unique_representatives mEx [rowEx]).1 (buildRecord mEx rowEx) (by decide),
   (c7_unique_representatives mEx [rowEx]).2.2.2⟩

/-! ### Claim C1 -/

/-- C1 counterexample: with three rows carrying the same OT id, exactly
one distinct id occurs more than once in `allRecords`, but
`duplicatesRemovedForCompliance` is 2 — the counter counts non-first
occurrences, not distinct duplicated ids. -/
theorem c1_counterexample :
    ¬((((processSheet mEx [rowEx, rowEx, rowEx]).allRows.map (·.id)).dedup.filter
        (fun i =>
          1 < ((processSheet mEx [rowEx, rowEx, rowEx]).allRows.map (·.id)).count i)).length =
      (processSheet mEx [rowEx, rowEx, rowEx]).report.duplicatesRemovedForCompliance) := by
  decide

/-- C1 (amended): the reconciliation pass's `duplicatesRemovedForCompliance`
is the number of non-first occurrences of ids in `allRecords`, i.e.
`|allRecords|` minus the number of distinct ids in `allRecords`. -/
theorem c1_duplicates_count (m : ColumnMapping) (rows : List Row) :
    (processSheet m rows).report.duplicatesRemovedForCompliance +
      ((processSheet m rows).allRows.map (·.id)).dedup.length =
      (processSheet m rows).allRows.length := by
  have inv := sheetInv_processSheet m rows
  have hdedup : ((rows.foldl (processRow m) initState).otMap.map (·.1)).length =
      (((rows.foldl (processRow m) initState).allRows.map (·.id))).dedup.length :=
    nodup_length_eq_dedup _ _ inv.nodupKeys inv.keysIff
  show (rows.foldl (processRow m) initState).dups +
      (((rows.foldl (processRow m) initState).allRows.map (·.id))).dedup.length =
      (rows.foldl (processRow m) initState).allRows.length
  have := inv.count
  simp only [List.length_map] at hdedup
  omega

/-! ### Claim C2 -/

/-- C2 counterexample: a row with a blank OT id does contribute to a
report count other than `emptyRows` — it increments `totalRows` too. -/
theorem c2_counterexample :
    (processSheet mEx [rowBlankId]).report.emptyRows = 1 ∧
    (processSheet mEx [rowBlankId]).report.totalRows ≠
      (processSheet mEx ([] : List Row)).report.totalRows := by
  decide

/-- C2 (amended): a blank-id row increments `emptyRows` and `totalRows`
by one and contributes to no other count of the audit report; no record
for it appears in `allRecords` or `uniqueRecords` (removing the row leaves
both views and all remaining counters unchanged). -/
theorem c2_blank_row (m : ColumnMapping) (l r : List Row) (b : Row)
    (hb : strField b m.otNumber "" = "") :
    (processSheet m (l ++ b :: r)).report.emptyRows =
      (processSheet m (l ++ r)).report.emptyRows + 1 ∧
    (processSheet m (l ++ b :: r)).report.totalRows =
      (processSheet m (l ++ r)).report.totalRows + 1 ∧
    (processSheet m (l ++ b :: r)).allRows = (processSheet m (l ++ r)).allRows ∧
    (processSheet m (l ++ b :: r)).uniqueOTs = (processSheet m (l ++ r)).uniqueOTs ∧
    (processSheet m (l ++ b :: r)).report.duplicatesRemovedForCompliance =
      (processSheet m (l ++ r)).report.duplicatesRemovedForCompliance ∧
    (processSheet m (l ++ b :: r)).report.removedOtIds =
      (processSheet m (l ++ r)).report.removedOtIds ∧
    (processSheet m (l ++ b :: r)).report.internalClientsCount =
      (processSheet m (l ++ r)).report.internalClientsCount ∧
    (processSheet m (l ++ b :: r)).report.internalClientsByCode =
      (processSheet m (l ++ r)).report.internalClientsByCode := by
  have hkept : keptRecords m (l ++ b :: r) = keptRecords m (l ++ r) := by
    simp [keptRecords, keptRows, List.filter_append, hb]
  have hbc : blankCount m (l ++ b :: r) = blankCount m (l ++ r) + 1 := by
    simp only [blankCount, List.filter_append, List.filter_cons, hb, decide_True,
      if_true, List.length_append, List.length_cons]
    omega
  have hlen : (l ++ b :: r).length = (l ++ r).length + 1 := by
    simp only [List.length_append, List.length_cons]
    omega
  rw [processSheet_char m (l ++ b :: r), processSheet_char m (l ++ r)]
  refine ⟨?_, ?_, ?_, ?_, ?_, ?_, ?_, ?_⟩ <;> simp [hkept, hbc, hlen]

/-- C2 witness: one blank row against the empty sheet. -/
theorem c2_blank_row_witness :
    (processSheet mEx ([rowBlankId] : List Row)).report.emptyRows =
      (processSheet mEx ([] : List Row)).report.emptyRows + 1 ∧
    (processSheet mEx ([rowBlankId] : List Row)).allRows =
      (processSheet mEx ([] : List Row)).allRows :=
  ⟨(c2_blank_row mEx [] [] rowBlankId (by decide)).1,
   (c2_blank_row mEx [] [] rowBlankId (by decide)).2.2.1⟩

/-! ### Claim C3 -/

/-- C3 counterexample: with the OT-type column mapped and the type cell
missing, the constructed record's otType is the empty string, not
"N/A". -/
theorem c3_counterexample :
    (processSheet mEx [rowEx]).allRows.map (·.otType) = [""] ∧
    (processSheet mEx [rowEx]).allRows.map (·.otType) ≠ ["N/A"] := by
  decide

/-- C3 (amended): the "N/A" default for `otType` applies exactly when no
OT-type column is mapped; when a column is mapped and its cell is blank
(missing, empty or whitespace-only), the record's otType is the empty
string. -/
theorem c3_ottype_default (m : ColumnMapping) (row : Row) :
    (m.otType = "" → (buildRecord m row).otType = "N/A") ∧
    (m.otType ≠ "" → cellBlank (getCell row m.otType) →
      (buildRecord m row).otType = "") := by
  have h0 : jsTrim "" = "" := by decide
  constructor
  · intro h
    simp [buildRecord, h]
  · intro hm hc
    have hblank : strField row m.otType "" = "" := by
      rcases hc with h | ⟨s, hs, ht⟩
      · simp [strField, h, jsOr, jsTruthy, jsString, h0]
      · by_cases hne : s = ""
        · subst hne
          simp [strField, hs, jsOr, jsTruthy, jsString, h0]
        · have htr : jsTruthy (some (CellVal.str s)) = true := by
            simp [jsTruthy, hne]
          simp [strField, hs, jsOr, htr, jsString, ht]
    simp [buildRecord, hm, hblank]

/-- C3 witness: a mapped-but-missing type cell gives "", an unmapped
type column gives "N/A". -/
theorem c3_ottype_default_witness :
    (buildRecord mEx rowEx).otType = "" ∧ (buildRecord mNoType rowEx).otType = "N/A" :=
  ⟨(c3_ottype_default mEx rowEx).2 (by decide) (Or.inl (by decide)),
   (c3_ottype_default mNoType rowEx).1 rfl⟩

/-! ### Internal-tally lemmas -/

theorem codeCount_cons (a : String) (n : Nat) (rest : List (String × Nat)) (c : String) :
    codeCount ((a, n) :: rest) c = if a = c then n else codeCount rest c := by
  by_cases h : a = c <;> simp [codeCount, List.find?, h]

theorem codeCount_bumpCode (b : List (String × Nat)) (code c : String) :
    codeCount (bumpCode b code) c = codeCount b c + (if c = code then 1 else 0) := by
  induction b with
  | nil =>
    by_cases h : c = code
    · simp [bumpCode, codeCount_cons, codeCount, h]
    · have h2 : ¬code = c := fun e => h e.symm
      simp [bumpCode, codeCount_cons, codeCount, h, h2]
  | cons kv rest ih =>
    obtain ⟨a, n⟩ := kv
    by_cases h1 : a = code <;> by_cases h2 : a = c
    · have hc : c = code := h2.symm.trans h1
      simp [bumpCode, h1, codeCount_cons, h2, hc]
    · have hc : ¬c = code := fun e => h2 (h1.trans e.symm)
      have h4 : ¬code = c := fun e => h2 (h1.trans e)
      simp [bumpCode, h1, codeCount_cons, h2, hc, h4]
    · have hc : ¬c = code := fun e => h1 (h2.trans e)
      simp [bumpCode, h1, codeCount_cons, h2, hc]
    · simp [bumpCode, h1, codeCount_cons, h2, ih]

theorem tallyFold (rows : List ParsedOT) (acc : Nat × List (String × Nat)) :
    (rows.foldl tallyStep acc).1 = acc.1 + (rows.filter (·.isInternalClient)).length ∧
    ∀ c, codeCount (rows.foldl tallyStep acc).2 c =
      codeCount acc.2 c +
        (rows.filter (fun o => o.isInternalClient && o.clientCode = c)).length := by
  induction rows generalizing acc with
  | nil => simp
  | cons o rest ih =>
    by_cases h : o.isInternalClient = true
    · have hs : tallyStep acc o = (acc.1 + 1, bumpCode acc.2 o.clientCode) := by
        simp [tallyStep, h]
      obtain ⟨ih1, ih2⟩ := ih (acc.1 + 1, bumpCode acc.2 o.clientCode)
      constructor
      · rw [List.foldl_cons, hs, ih1]
        simp [List.filter_cons, h]
        omega
      · intro c
        rw [List.foldl_cons, hs, ih2 c]
        simp only [codeCount_bumpCode]
        by_cases hc : o.clientCode = c
        · rw [if_pos hc.symm]
          simp [List.filter_cons, h, hc]
          omega
        · rw [if_neg (fun e => hc e.symm)]
          simp [List.filter_cons, h, hc]
    · have hs : tallyStep acc o = acc := by
        simp [tallyStep, h]
      obtain ⟨ih1, ih2⟩ := ih acc
      constructor
      · rw [List.foldl_cons, hs, ih1]
        simp [List.filter_cons, h]
      · intro c
        rw [List.foldl_cons, hs, ih2 c]
        simp [List.filter_cons, h]

/-- Records in `allRows` carry the internal-client flag exactly when
their client code is in the fixed internal set. -/
theorem mem_allRows_internal (m : ColumnMapping) (rows : List Row) (ot : ParsedOT)
    (h : ot ∈ (processSheet m rows).allRows) :
    ot.isInternalClient = INTERNAL_CLIENT_CODES.contains ot.clientCode := by
  rw [processSheet_char] at h
  obtain ⟨row, _, hrow⟩ := List.mem_map.mp h
  subst hrow
  rfl

/-! ### Claim C8 -/

/-- C8: a record whose client code is in the fixed internal set appears
in neither the compliance nor the financial filtered output, for every
filter state — yet the internal records of `allRecords` are counted in
`internalClientsCount` and, per code, in `internalClientsByCode`. -/
theorem c8_internal_exclusion (m : ColumnMapping) (rows : List Row) (fs : FilterState)
    (ot : ParsedOT) (hint : ot.clientCode ∈ INTERNAL_CLIENT_CODES) :
    ot ∉ complianceData fs (processSheet m rows).uniqueOTs ∧
    ot ∉ financialData fs (processSheet m rows).allRows ∧
    (processSheet m rows).report.internalClientsCount =
      ((processSheet m rows).allRows.filter (·.isInternalClient)).length ∧
    (∀ c, codeCount ((processSheet m rows).report.internalClientsByCode) c =
      ((processSheet m rows).allRows.filter
        (fun o => o.isInternalClient && o.clientCode = c)).length) ∧
    (ot ∈ (processSheet m rows).allRows →
      1 ≤ codeCount ((processSheet m rows).report.internalClientsByCode) ot.clientCode) := by
  have hcontains : (["C0008157", "C0001114", "C0001140"] : List String).contains
      ot.clientCode = true :=
    List.elem_iff.mpr hint
  have hone : ot.clientCode = "C0008157" ∨ ot.clientCode = "C0001114" ∨
      ot.clientCode = "C0001140" := by
    simpa [INTERNAL_CLIENT_CODES] using hint
  refine ⟨?_, ?_, ?_, ?_, ?_⟩
  · intro hmem
    have hp := (List.mem_filter.mp hmem).2
    simp only [Bool.and_eq_true, Bool.not_eq_true', decide_eq_false_iff_not] at hp
    rcases hone with h | h | h <;> simp [h] at hp
  · intro hmem
    have hp := (List.mem_filter.mp hmem).2
    simp only [Bool.and_eq_true, Bool.not_eq_true', decide_eq_false_iff_not] at hp
    rcases hone with h | h | h <;> simp [h] at hp
  · rw [processSheet_char]
    have := (tallyFold (keptRecords m rows) (0, [])).1
    simpa [internalTally] using this
  · intro c
    rw [processSheet_char]
    have := (tallyFold (keptRecords m rows) (0, [])).2 c
    simpa [internalTally, codeCount] using this
  · intro hmem
    have hflag : ot.isInternalClient = true :=
      (mem_allRows_internal m rows ot hmem).trans hcontains
    have hmem' : ot ∈ keptRecords m rows := by
      rw [processSheet_char] at hmem
      exact hmem
    have hfilter : ot ∈ (keptRecords m rows).filter
        (fun o => o.isInternalClient && o.clientCode = ot.clientCode) :=
      List.mem_filter.mpr ⟨hmem', by simp [hflag]⟩
    have hpos : 0 < ((keptRecords m rows).filter
        (fun o => o.isInternalClient && o.clientCode = ot.clientCode)).length :=
      List.length_pos_of_mem hfilter
    rw [processSheet_char]
    have := (tallyFold (keptRecords m rows) (0, [])).2 ot.clientCode
    simp only [internalTally] at this ⊢
    rw [this]
    simp only [codeCount]
    simp
    omega

/-- C8 witness: an internal-client row at a concrete filter state. -/
theorem c8_internal_exclusion_witness :
    buildRecord mEx rowInternal ∉
      complianceData fsEx (processSheet mEx [rowInternal]).uniqueOTs ∧
    1 ≤ codeCount ((processSheet mEx [rowInternal]).report.internalClientsByCode)
        (buildRecord mEx rowInternal).clientCode :=
  ⟨(c8_internal_exclusion mEx [rowInternal] fsEx (buildRecord mEx rowInternal)
      (by decide)).1,
   (c8_internal_exclusion mEx [rowInternal] fsEx (buildRecord mEx rowInternal)
      (by decide)).2.2.2.2 (by decide)⟩

end OTDash
